import Mathlib

/-!
Verification of the outdoor-dataset normalization pipeline of
`streamlit_app.py` (pandas dataframes shallowly embedded as rectangular
tables of cells).

Conventions of the embedding:
* A pandas cell is `Cell`: missing (`NaN`/`None`/`NaT`) is `.null`, strings
  are `.str`, all numerics (int and float) are `.num` over `ℚ`, timestamps
  are `.date` with day granularity (the app only ever compares against a
  midnight-normalized "today").
* A dataframe is `DFrame`: ordered column names, per-column dtypes (the code
  only branches on numeric vs not, so dtypes are `numT`/`dateT`/`objT`), and
  a list of rows, each row a list of cells parallel to the columns.
* The `pycountry` country registry is external library data, not part of the
  repository; functions that consult it take the registry (a list of
  entries with `name`, optional `official_name`, `alpha_3`) and the fuzzy
  `pycountry.countries.lookup`-based helper as explicit parameters.
* Python exceptions are modelled with `Except`/`Option` for code that lets
  them propagate, and with an explicit raise-point oracle for
  `remove_future_dates`, whose `try/except: pass` swallows them.
-/

/-- A calendar date (day granularity); stands for a midnight-normalized
pandas `Timestamp`. -/
structure SDate where
  year : Int
  month : Nat
  day : Nat
deriving DecidableEq, Repr

/-- Date comparison, lexicographic on (year, month, day). -/
def SDate.ble (a b : SDate) : Bool :=
  if a.year ≠ b.year then decide (a.year < b.year)
  else if a.month ≠ b.month then decide (a.month < b.month)
  else decide (a.day ≤ b.day)

/-- One pandas cell. -/
inductive Cell where
  | null
  | str (s : String)
  | num (q : ℚ)
  | date (d : SDate)
deriving DecidableEq, Repr

/-- Column dtype, as far as the code ever inspects it:
`numT` covers the integer and float dtypes (`is_integer_dtype` /
`is_float_dtype`), `dateT` is datetime64, `objT` everything else. -/
inductive DType where
  | numT
  | dateT
  | objT
deriving DecidableEq, Repr

/-- A pandas DataFrame: ordered column names, their dtypes, and rows of
cells positionally parallel to the columns. -/
structure DFrame where
  cols : List String
  dtypes : List DType
  rows : List (List Cell)
deriving DecidableEq, Repr

/-- Index of the first column with the given name (`df.columns.get_loc`);
`none` when the name is absent. -/
def colIdx (cols : List String) (c : String) : Option Nat :=
  match cols with
  | [] => none
  | x :: xs => if x = c then some 0 else (colIdx xs c).map (· + 1)

/-- Dtype of column `i` (columns the frame does not have default to `objT`;
never reached on well-formed frames). -/
def dtypeAt (df : DFrame) (i : Nat) : DType :=
  df.dtypes.getD i .objT

/-- The cell a row holds for a named column of a frame (missing column or
short row reads as `null`). -/
def cellN (df : DFrame) (r : List Cell) (c : String) : Cell :=
  match colIdx df.cols c with
  | some i => r.getD i .null
  | none => .null

/-- Rectangularity: what pandas guarantees of every real frame. -/
def DFrame.WF (df : DFrame) : Prop :=
  df.dtypes.length = df.cols.length ∧ ∀ r ∈ df.rows, r.length = df.cols.length

/-- `c = c.null`? (pandas `isna`). -/
def isNullCell (c : Cell) : Bool :=
  match c with
  | .null => true
  | _ => false

/-- Python substring test `pat in s`. -/
def isSubstr (pat s : String) : Bool :=
  decide (pat.data <:+: s.data)

/-- Python `str.lower()` (character-wise; the column names at issue are
ASCII). -/
def strLower (s : String) : String := ⟨s.data.map Char.toLower⟩

/-- First loop of `find_value_column`: lower-cased name contains one of the
pollutant substrings. -/
def pmMatch (c : String) : Bool :=
  isSubstr "pm2" (strLower c) || isSubstr "pm 2" (strLower c) ||
    isSubstr "pm25" (strLower c) || isSubstr "average exposure" (strLower c)

/-- Second loop of `find_value_column`: lower-cased name is exactly one of
the generic aliases. -/
def aliasMatch (c : String) : Bool :=
  strLower c = "value" || strLower c = "avg" || strLower c = "mean"

/-- `find_value_column(cols)` from `prepare_owid_df`: first column matching
the pollutant heuristics, else first exact generic alias, else `None`. -/
def find_value_column (cols : List String) : Option String :=
  match cols.find? pmMatch with
  | some c => some c
  | none => cols.find? aliasMatch

/-- Split a character list on a separator character. -/
def splitOnChar (sep : Char) : List Char → List (List Char)
  | [] => [[]]
  | c :: cs =>
    match splitOnChar sep cs with
    | [] => [[]]
    | h :: t => if c = sep then [] :: h :: t else (c :: h) :: t

/-- Decimal digits to a number (`none` on empty or non-digit input). -/
def digitsToNat (l : List Char) : Option Nat :=
  if l ≠ [] ∧ l.all Char.isDigit then
    some (l.foldl (fun n c => n * 10 + (c.toNat - 48)) 0)
  else none

/-- Minimal model of `pd.to_datetime` string parsing: ISO `YYYY-MM-DD`. -/
def parseDate (s : String) : Option SDate :=
  match (splitOnChar (Char.ofNat 45) s.data).map digitsToNat with
  | [some y, some m, some d] =>
      if 1 ≤ m ∧ m ≤ 12 ∧ 1 ≤ d ∧ d ≤ 31 then some ⟨(y : Int), m, d⟩ else none
  | _ => none

/-- `pd.to_datetime(cell, errors="coerce")` per cell: timestamps pass
through, parseable strings are parsed, everything else becomes `NaT`. -/
def toDatetimeCell (c : Cell) : Cell :=
  match c with
  | .date d => .date d
  | .str s => match parseDate s with
    | some d => .date d
    | none => .null
  | _ => .null

/-- `df[date_col] = pd.to_datetime(df[date_col], errors="coerce")`:
in-place coercion of column `i` of the frame object of the caller. -/
def coerceDatetime (df : DFrame) (i : Nat) : DFrame :=
  { df with dtypes := df.dtypes.set i .dateT
          , rows := df.rows.map (fun r => r.set i (toDatetimeCell (r.getD i .null))) }

/-- `df[date_col] <= int(today.year)` on one cell of a numeric column
(NaN compares false, hence is dropped). -/
def cellLeYear (c : Cell) (y : Int) : Bool :=
  match c with
  | .num q => decide (q ≤ (y : ℚ))
  | _ => false

/-- `df[date_col] <= today` on one cell of a coerced datetime column. -/
def cellLeDate (c : Cell) (t : SDate) : Bool :=
  match c with
  | .date d => d.ble t
  | _ => false

/-- Numeric branch `df = df[df[date_col] <= int(today.year)]`. -/
def filterNumYear (df : DFrame) (i : Nat) (y : Int) : DFrame :=
  { df with rows := df.rows.filter (fun r => cellLeYear (r.getD i .null) y) }

/-- `df = df[df[date_col].notna()]`. -/
def filterNotna (df : DFrame) (i : Nat) : DFrame :=
  { df with rows := df.rows.filter (fun r => !isNullCell (r.getD i .null)) }

/-- `df = df[df[date_col] <= today]` (datetime branch). -/
def filterLeDate (df : DFrame) (i : Nat) (t : SDate) : DFrame :=
  { df with rows := df.rows.filter (fun r => cellLeDate (r.getD i .null) t) }

/-- Points inside the `try` block of `remove_future_dates` at which an
exception may be raised (the block is wrapped in `except Exception: pass`,
so any statement that raises jumps to the trailing `return df`):
computing the reference date, the numeric-branch comparison/selection, the
`pd.to_datetime` call, the `notna` selection, the final `<= today`
comparison (which genuinely raises in pandas for a tz-naive column against
the tz-aware Seoul midnight). -/
inductive RP where
  | rToday
  | rNumFilter
  | rCoerce
  | rNotna
  | rCmp
deriving DecidableEq, Repr

/-- `remove_future_dates(df, date_col)` run with raise-point oracle `exc`
(`none` = no internal exception) and reference date `today`
(`now_seoul().normalize()`).  Returns `(function result, state of the
frame object of the caller after the call)`: the only in-place statement is the
`to_datetime` column assignment; every local rebinding `df = df[...]`
leaves the object of the caller alone, and the `except: pass` makes a raise
return whatever the local `df` names at that moment. -/
def remove_future_dates (exc : Option RP) (today : SDate) (df0 : DFrame)
    (dateCol : String) : DFrame × DFrame :=
  if exc = some .rToday then (df0, df0)
  else
    match colIdx df0.cols dateCol with
    | none => (df0, df0)
    | some i =>
      if dtypeAt df0 i = .numT then
        if exc = some .rNumFilter then (df0, df0)
        else (filterNumYear df0 i today.year, df0)
      else
        if exc = some .rCoerce then (df0, df0)
        else
          let df1 := coerceDatetime df0 i
          if exc = some .rNotna then (df1, df1)
          else
            let df2 := filterNotna df1 i
            if exc = some .rCmp then (df2, df1)
            else (filterLeDate df2 i today, df1)

/-- The curated static table `common_mappings` of `get_country_iso_mapping`,
in source order. -/
def common_mappings : List (String × String) := [
  ("South Korea", "KOR"),
  ("Korea", "KOR"),
  ("United States", "USA"),
  ("United Kingdom", "GBR"),
  ("China", "CHN"),
  ("India", "IND"),
  ("Japan", "JPN"),
  ("Germany", "DEU"),
  ("France", "FRA"),
  ("Italy", "ITA"),
  ("Spain", "ESP"),
  ("Brazil", "BRA"),
  ("Russia", "RUS"),
  ("Australia", "AUS"),
  ("Canada", "CAN"),
  ("Mexico", "MEX"),
  ("Indonesia", "IDN"),
  ("Turkey", "TUR"),
  ("Saudi Arabia", "SAU"),
  ("Argentina", "ARG"),
  ("South Africa", "ZAF"),
  ("Thailand", "THA"),
  ("Malaysia", "MYS"),
  ("Singapore", "SGP"),
  ("Philippines", "PHL"),
  ("Vietnam", "VNM"),
  ("Bangladesh", "BGD"),
  ("Pakistan", "PAK"),
  ("Nigeria", "NGA"),
  ("Egypt", "EGY"),
  ("Iran", "IRN"),
  ("Iraq", "IRQ"),
  ("Israel", "ISR"),
  ("United Arab Emirates", "ARE"),
  ("Norway", "NOR"),
  ("Sweden", "SWE"),
  ("Denmark", "DNK"),
  ("Finland", "FIN"),
  ("Iceland", "ISL"),
  ("Netherlands", "NLD"),
  ("Belgium", "BEL"),
  ("Switzerland", "CHE"),
  ("Austria", "AUT"),
  ("Portugal", "PRT"),
  ("Greece", "GRC"),
  ("Poland", "POL"),
  ("Czech Republic", "CZE"),
  ("Hungary", "HUN"),
  ("Romania", "ROU"),
  ("Bulgaria", "BGR"),
  ("Croatia", "HRV"),
  ("Serbia", "SRB"),
  ("Ukraine", "UKR"),
  ("Belarus", "BLR"),
  ("Lithuania", "LTU"),
  ("Latvia", "LVA"),
  ("Estonia", "EST"),
  ("Ireland", "IRL"),
  ("New Zealand", "NZL"),
  ("Chile", "CHL"),
  ("Peru", "PER"),
  ("Colombia", "COL"),
  ("Venezuela", "VEN"),
  ("Ecuador", "ECU"),
  ("Bolivia", "BOL"),
  ("Paraguay", "PRY"),
  ("Uruguay", "URY"),
  ("Kenya", "KEN"),
  ("Ethiopia", "ETH"),
  ("Ghana", "GHA"),
  ("Morocco", "MAR"),
  ("Algeria", "DZA"),
  ("Tunisia", "TUN"),
  ("Libya", "LBY"),
  ("Sudan", "SDN"),
  ("Kazakhstan", "KAZ"),
  ("Uzbekistan", "UZB"),
  ("Afghanistan", "AFG"),
  ("Mongolia", "MNG"),
  ("Nepal", "NPL"),
  ("Sri Lanka", "LKA"),
  ("Myanmar", "MMR"),
  ("Cambodia", "KHM"),
  ("Laos", "LAO")]

/-- One entry of the external ISO registry (`pycountry.countries`): a name,
an optional official long-form name, and the 3-letter code. -/
structure RegEntry where
  name : String
  official_name : Option String
  alpha_3 : String
deriving DecidableEq, Repr

/-- Python `dict` insertion `mapping[k] = v`: overwrite the value of an
existing key in place, else append the new binding. -/
def dinsert (m : List (String × String)) (k v : String) : List (String × String) :=
  if m.any (fun p => p.1 = k) then
    m.map (fun p => if p.1 = k then (k, v) else p)
  else m ++ [(k, v)]

/-- Python `dict` lookup (first binding of the key; keys are unique by
construction of `dinsert`). -/
def dlookup (m : List (String × String)) (k : String) : Option String :=
  (m.find? (fun p => p.1 = k)).map (fun p => p.2)

/-- The static table alone, as a dict (`mapping.update(common_mappings)`
starting from `{}`). -/
def static_map : List (String × String) :=
  common_mappings.foldl (fun m p => dinsert m p.1 p.2) []

/-- `get_country_iso_mapping()`: the static table, then for every registry
country `mapping[country.name] = country.alpha_3` and, where present,
`mapping[country.official_name] = country.alpha_3`.  The registry loop runs
after the static update, so a registry name equal to a static key
overwrites the static binding.  (The `try/except` around the loop is
immaterial here: the registry iteration itself is modelled as total.) -/
def get_country_iso_mapping (reg : List RegEntry) : List (String × String) :=
  reg.foldl
    (fun m e =>
      let m := dinsert m e.name e.alpha_3
      match e.official_name with
      | some o => dinsert m o e.alpha_3
      | none => m)
    static_map

/-- Python `str(x)` on a cell, as used by `.astype(str)` (`NaN` stringifies
to `"nan"`; the exact rendering of numbers and dates is immaterial to the
pipeline and abstracted by `toString`). -/
def astypeStrCell (c : Cell) : Cell :=
  match c with
  | .null => .str "nan"
  | .str s => .str s
  | .num q => .str (toString q)
  | .date d => .str (toString d.year ++ "-" ++ toString d.month ++ "-" ++ toString d.day)

/-- `pd.to_numeric` string parsing: an optional minus sign, digits, and an
optional fractional part; anything else fails. -/
def parseNum (s : String) : Option ℚ :=
  let core (t : List Char) : Option ℚ :=
    match (splitOnChar (Char.ofNat 46) t).map digitsToNat with
    | [some a] => some ((a : ℚ))
    | [some a, some b] =>
        some ((a : ℚ) + (b : ℚ) / ((10 : ℚ) ^ ((splitOnChar (Char.ofNat 46) t).getD 1 []).length))
    | _ => none
  match s.data with
  | c :: cs => if c = Char.ofNat 45 then (core cs).map (fun q => -q) else core s.data
  | [] => none

/-- `pd.to_numeric(cell, errors="coerce")`: numbers pass through, numeric
strings are parsed, everything else becomes `NaN`. -/
def toNumericCell (c : Cell) : Cell :=
  match c with
  | .num q => .num q
  | .str s => match parseNum s with
    | some q => .num q
    | none => .null
  | _ => .null

/-- Column assignment `df[name] = <series>` where the series is computed
row-wise from the frame itself (the only form `prepare_owid_df` uses):
overwrite the column in place if the name exists, else append it. -/
def setColRowF (i? : Option Nat) (g : List Cell → Cell) (r : List Cell) : List Cell :=
  match i? with
  | some i => r.set i (g r)
  | none => r ++ [g r]

/-- Frame-level column assignment (see `setColRowF`). -/
def setColF (df : DFrame) (name : String) (dt : DType) (g : List Cell → Cell) : DFrame :=
  let i? := colIdx df.cols name
  { cols := match i? with | some _ => df.cols | none => df.cols ++ [name]
  , dtypes := match i? with | some i => df.dtypes.set i dt | none => df.dtypes ++ [dt]
  , rows := df.rows.map (setColRowF i? g) }

/-- Source of the `country` column: column `Entity`, else column `entity`,
else the first column stringified (`df.iloc[:,0].astype(str)`). -/
def countrySrc (df : DFrame) : DType × (List Cell → Cell) :=
  match colIdx df.cols "Entity" with
  | some j => (dtypeAt df j, fun r => r.getD j .null)
  | none =>
    match colIdx df.cols "entity" with
    | some j => (dtypeAt df j, fun r => r.getD j .null)
    | none => (.objT, fun r => astypeStrCell (r.getD 0 .null))

/-- `df["country"] = df["Entity"] / df["entity"] / df.iloc[:,0].astype(str)`. -/
def setCountry (df : DFrame) : DFrame :=
  setColF df "country" (countrySrc df).1 (countrySrc df).2

/-- Is this cell acceptable to `.astype("Int64")` after `pd.to_numeric`
(missing, or a number with no fractional part)? -/
def int64Ok (c : Cell) : Bool :=
  match c with
  | .null => true
  | .num q => q.den = 1
  | _ => false

/-- `df["year"] = pd.to_numeric(df["Year"] / df["year"] / df.iloc[:,2],
errors="coerce").astype("Int64")`.  `none` models the exceptions this
statement can raise (an `IndexError` from `iloc[:,2]` when the frame has
fewer than three columns, or the `astype("Int64")` failure on a
non-integral float), which propagate out of `prepare_owid_df`. -/
def yearSrc (df : DFrame) : Option (List Cell → Cell) :=
  match colIdx df.cols "Year" with
  | some j => some (fun r => toNumericCell (r.getD j .null))
  | none =>
    match colIdx df.cols "year" with
    | some j => some (fun r => toNumericCell (r.getD j .null))
    | none => if 2 < df.cols.length then some (fun r => toNumericCell (r.getD 2 .null)) else none

/-- See `yearSrc`: the assignment itself, guarded by the `astype("Int64")`
integrality requirement. -/
def setYear (df : DFrame) : Option DFrame :=
  match yearSrc df with
  | none => none
  | some g =>
      if df.rows.all (fun r => int64Ok (g r)) then some (setColF df "year" .numT g) else none

/-- Source of the `iso_alpha` column: column `Code` if present, else `None`. -/
def isoSrc (df : DFrame) : DType × (List Cell → Cell) :=
  match colIdx df.cols "Code" with
  | some j => (dtypeAt df j, fun r => r.getD j .null)
  | none => (.objT, fun _ => .null)

/-- `df["iso_alpha"] = df["Code"]` if present, else `df["iso_alpha"] = None`. -/
def setIso (df : DFrame) : DFrame :=
  setColF df "iso_alpha" (isoSrc df).1 (isoSrc df).2

/-- `df["value"] = pd.to_numeric(df[value_col], errors="coerce")` (the
`none` branch of the index lookup is unreachable: `value_col` is always one
of the columns). -/
def setValue (df : DFrame) (vcol : String) : DFrame :=
  setColF df "value" .numT
    (match colIdx df.cols vcol with
     | some j => fun r => toNumericCell (r.getD j .null)
     | none => fun _ => .null)

/-- The resolver mask `df["iso_alpha"].isna() | (df["iso_alpha"] == "")`
on one cell. -/
def maskCell (c : Cell) : Bool :=
  isNullCell c || c = .str ""

/-- `.map(iso_mapping)` applied to a country cell: dict lookup of a string
key; anything unmatched (or a non-string key) becomes `NaN`. -/
def lookupCountryCell (m : List (String × String)) (c : Cell) : Cell :=
  match c with
  | .str s => match dlookup m s with
    | some v => .str v
    | none => .null
  | _ => .null

/-- `df.loc[mask, "iso_alpha"] = df.loc[mask, "country"].map(iso_mapping)`
on one row (tiers 1 and 2: the merged static-plus-registry dict). -/
def tier12Row (m : List (String × String)) (ii ic : Nat) (r : List Cell) : List Cell :=
  if maskCell (r.getD ii .null) then r.set ii (lookupCountryCell m (r.getD ic .null)) else r

/-- `name_to_iso` applied to a country cell: the fuzzy
`pycountry.countries.lookup` helper (a parameter of the embedding; any
exception yields `None`, and a non-string argument always does). -/
def fuzzyCellF (fuzzy : String → Option String) (c : Cell) : Cell :=
  match c with
  | .str s => match fuzzy s with
    | some v => .str v
    | none => .null
  | _ => .null

/-- `df.loc[mask, "iso_alpha"] = df.loc[mask, "country"].apply(name_to_iso)`
on one row (tier 3). -/
def fuzzyRow (fuzzy : String → Option String) (ii ic : Nat) (r : List Cell) : List Cell :=
  if maskCell (r.getD ii .null) then r.set ii (fuzzyCellF fuzzy (r.getD ic .null)) else r

/-- The fixed deny-list `exclude_entities` of aggregate rows. -/
def exclude_entities : List String :=
  ["World", "High-income countries", "Upper-middle-income countries",
   "Lower-middle-income countries", "Low-income countries", "Europe",
   "Asia", "Africa", "North America", "South America", "Oceania"]

/-- `df["country"].isin(exclude_entities)` on one cell: exact equality with
some member of the deny-list. -/
def isinExcluded (c : Cell) : Bool :=
  exclude_entities.any (fun e => c = .str e)

/-- Generic row map `df = df.<rowwise transform>` (keeps schema). -/
def mapRows (f : List Cell → List Cell) (df : DFrame) : DFrame :=
  { df with rows := df.rows.map f }

/-- Generic row selection `df = df[<boolean mask>]` (keeps schema). -/
def filterRows (p : List Cell → Bool) (df : DFrame) : DFrame :=
  { df with rows := df.rows.filter p }

/-- `df[["country","iso_alpha","year","value"]]` given the positions of the
four columns (the trailing `.rename` in the source renames `year`/`value`
to themselves and is a no-op). -/
def selectFour (ic ii iy iv : Nat) (df : DFrame) : DFrame :=
  { cols := ["country", "iso_alpha", "year", "value"]
  , dtypes := [dtypeAt df ic, dtypeAt df ii, dtypeAt df iy, dtypeAt df iv]
  , rows := df.rows.map (fun r =>
      [r.getD ic .null, r.getD ii .null, r.getD iy .null, r.getD iv .null]) }

/-- The aggregate-row removal `df = df[~df["country"].isin(exclude_entities)]`
(`ic` is the position of the `country` column). -/
def aggregatorFilter (ic : Nat) (df : DFrame) : DFrame :=
  filterRows (fun r => !isinExcluded (r.getD ic .null)) df

/-- `df["iso_alpha"] = df["iso_alpha"].astype(str)`: the dtype change of
the `astype` call (the cell map is applied separately). -/
def setDtypeAt (i : Nat) (df : DFrame) : DFrame :=
  { df with dtypes := df.dtypes.set i .objT }

/-- The second half of `prepare_owid_df` with the four column positions
(`country`, `iso_alpha`, `year`, `value`) given explicitly.  Reading the
composition inside out:
`dropna(subset=["value","country","year"])`, resolver tiers 1–2 (the merged
dict), resolver tier 3 (fuzzy), `dropna(subset=["iso_alpha"])`,
`astype(str)` on `iso_alpha`, the aggregate filter and the final
four-column selection. -/
def resolveAndFilterIdx (reg : List RegEntry) (fuzzy : String → Option String)
    (ic ii iy iv : Nat) (df4 : DFrame) : DFrame :=
  selectFour ic ii iy iv
    (aggregatorFilter ic
      (mapRows (fun r => r.set ii (astypeStrCell (r.getD ii .null)))
        (setDtypeAt ii
          (filterRows (fun r => !isNullCell (r.getD ii .null))
            (mapRows (fuzzyRow fuzzy ii ic)
              (mapRows (tier12Row (get_country_iso_mapping reg) ii ic)
                (filterRows (fun r =>
                  !isNullCell (r.getD iv .null) && !isNullCell (r.getD ic .null) &&
                    !isNullCell (r.getD iy .null)) df4)))))))

/-- The second half of `prepare_owid_df`, starting from the frame `df4`
that already carries the four assigned columns (whose positions it looks
up by name). -/
def resolveAndFilter (reg : List RegEntry) (fuzzy : String → Option String)
    (df4 : DFrame) : DFrame :=
  resolveAndFilterIdx reg fuzzy
    ((colIdx df4.cols "country").getD 0)
    ((colIdx df4.cols "iso_alpha").getD 0)
    ((colIdx df4.cols "year").getD 0)
    ((colIdx df4.cols "value").getD 0) df4

/-- `prepare_owid_df(raw_df)`, parameterized by the external registry and
fuzzy lookup.  `Except.error` stands for the exceptions the function can
raise (the explicit `RuntimeError` when no value column is found, and the
year-extraction failures of `setYear`); `load_data` catches them all. -/
def prepare_owid_df (reg : List RegEntry) (fuzzy : String → Option String)
    (raw : DFrame) : Except String DFrame :=
  match find_value_column raw.cols with
  | none => .error "PM2.5 value column not found"
  | some value_col =>
    match setYear (setCountry raw) with
    | none => .error "year extraction failed"
    | some df2 => .ok (resolveAndFilter reg fuzzy (setValue (setIso df2) value_col))

/-- The built-in fallback dataset of `load_data` (both `except` branches
build the same literal).  Fractional concentrations are written as explicit
reduced fractions so that the kernel can evaluate them:
`8.5 = 17/2`, `15.2 = 76/5`, `18.3 = 183/10`, `7.8 = 39/5`. -/
def sample_df : DFrame :=
  { cols := ["country", "iso_alpha", "year", "value"]
  , dtypes := [.objT, .objT, .numT, .numT]
  , rows :=
    [ [.str "South Korea", .str "KOR", .num 2022, .num 25]
    , [.str "China", .str "CHN", .num 2022, .num 85]
    , [.str "India", .str "IND", .num 2022, .num 95]
    , [.str "Finland", .str "FIN", .num 2022, .num 6]
    , [.str "Iceland", .str "ISL", .num 2022, .num 5]
    , [.str "United States", .str "USA", .num 2022, .num 12]
    , [.str "Germany", .str "DEU", .num 2022, .num ⟨17, 2, by decide, by decide⟩]
    , [.str "Japan", .str "JPN", .num 2022, .num ⟨76, 5, by decide, by decide⟩]
    , [.str "Brazil", .str "BRA", .num 2022, .num ⟨183, 10, by decide, by decide⟩]
    , [.str "Australia", .str "AUS", .num 2022, .num ⟨39, 5, by decide, by decide⟩] ] }

/-- `fetch_owid_pm25`: `max_retries+1` attempts; the first attempt that
succeeds returns its frame, and after the loop the function returns `None`.
The per-attempt outcome (HTTP and CSV parsing) is the oracle `responses`. -/
def fetch_owid_pm25 (responses : Nat → Option DFrame) (max_retries : Nat) : Option DFrame :=
  (List.range (max_retries + 1)).findSome? responses

/-- `load_data()`: a missing fetch result or any exception from
`prepare_owid_df` yields the fallback dataset with the sample flag set. -/
def load_data (reg : List RegEntry) (fuzzy : String → Option String)
    (raw : Option DFrame) : DFrame × Bool :=
  match raw with
  | none => (sample_df, true)
  | some r =>
    match prepare_owid_df reg fuzzy r with
    | .ok d => (d, false)
    | .error _ => (sample_df, true)

instance : DecidableEq (Except String DFrame) := fun a b =>
  match a, b with
  | .ok x, .ok y => if h : x = y then isTrue (by rw [h]) else isFalse (by simp [h])
  | .error x, .error y => if h : x = y then isTrue (by rw [h]) else isFalse (by simp [h])
  | .ok _, .error _ => isFalse (by simp)
  | .error _, .ok _ => isFalse (by simp)

set_option maxRecDepth 100000

/-! ### Basic lemmas about the embedding -/

lemma getD_set_ne (l : List Cell) (i j : Nat) (a : Cell) (h : i ≠ j) :
    (l.set i a).getD j .null = l.getD j .null := by
  simp [List.getD_eq_getElem?_getD, List.getElem?_set_ne h]

lemma getD_oob (l : List Cell) (i : Nat) (h : l.length ≤ i) :
    l.getD i .null = .null := by
  simp [List.getD_eq_getElem?_getD, List.getElem?_eq_none h]

lemma getD_set_self (l : List Cell) (i : Nat) (a : Cell) (h : i < l.length) :
    (l.set i a).getD i .null = a := by
  simp [List.getD_eq_getElem?_getD, List.getElem?_set_self h]

lemma cellLeYear_iff (c : Cell) (y : Int) :
    cellLeYear c y = true ↔ ∃ q : ℚ, c = .num q ∧ q ≤ (y : ℚ) := by
  cases c <;> simp [cellLeYear]

/-! ### C10: the Future-Date Filter is a no-op when the date column is
absent -/

/-- C10.  For every input table that does not contain the designated date
field among its columns, `remove_future_dates` returns its input unchanged
(same rows, same columns, same values), and the frame object of the caller
is untouched — whatever internal exception occurs, if any. -/
theorem c10_noop_when_column_absent (exc : Option RP) (today : SDate)
    (df : DFrame) (c : String) (h : colIdx df.cols c = none) :
    remove_future_dates exc today df c = (df, df) := by
  by_cases hexc : exc = some RP.rToday <;> simp [remove_future_dates, hexc, h]

/-- Witness for C10 at a concrete frame with no `date`/`year` column. -/
theorem c10_noop_when_column_absent_witness :
    colIdx ["country", "value"] "year" = none ∧
      remove_future_dates none ⟨2024, 1, 1⟩
        ⟨["country", "value"], [.objT, .numT], [[.str "Narnia", .num 3]]⟩ "year" =
        (⟨["country", "value"], [.objT, .numT], [[.str "Narnia", .num 3]]⟩,
         ⟨["country", "value"], [.objT, .numT], [[.str "Narnia", .num 3]]⟩) :=
  ⟨by decide, c10_noop_when_column_absent none ⟨2024, 1, 1⟩ _ "year" (by decide)⟩

/-! ### C4: on a normalized (numeric-year) table the Future-Date Filter
never mutates its input and only derives a filtered copy -/

/-- C4.  For every table whose designated date column exists and is
numeric — which every normalized table is, its `year` column having been
built with `astype("Int64")` — `remove_future_dates` leaves the frame
object of the caller unchanged and returns a derived copy with the same
columns and dtypes whose rows are a sub-sequence of the input rows; no
column is modified in place.  This holds on every execution path,
exceptional or not. -/
theorem c4_normalized_input_not_mutated (exc : Option RP) (today : SDate)
    (df : DFrame) (c : String) (i : Nat) (h : colIdx df.cols c = some i)
    (hd : dtypeAt df i = .numT) :
    (remove_future_dates exc today df c).2 = df ∧
      ((remove_future_dates exc today df c).1).cols = df.cols ∧
      ((remove_future_dates exc today df c).1).dtypes = df.dtypes ∧
      ((remove_future_dates exc today df c).1).rows.Sublist df.rows := by
  by_cases h1 : exc = some RP.rToday
  · simp [remove_future_dates, h1]
  · by_cases h2 : exc = some RP.rNumFilter
    · simp [remove_future_dates, h1, h2, h, hd]
    · refine ⟨?_, ?_, ?_, ?_⟩ <;>
        simp [remove_future_dates, h1, h2, h, hd, filterNumYear, List.filter_sublist]

/-- Witness for C4 on the sample-shaped normalized frame. -/
theorem c4_normalized_input_not_mutated_witness :
    colIdx sample_df.cols "year" = some 2 ∧ dtypeAt sample_df 2 = .numT ∧
      (remove_future_dates none ⟨2024, 1, 1⟩ sample_df "year").2 = sample_df ∧
      ((remove_future_dates none ⟨2024, 1, 1⟩ sample_df "year").1).rows.Sublist
        sample_df.rows :=
  ⟨by decide, by decide,
   (c4_normalized_input_not_mutated none ⟨2024, 1, 1⟩ sample_df "year" 2
      (by decide) (by decide)).1,
   (c4_normalized_input_not_mutated none ⟨2024, 1, 1⟩ sample_df "year" 2
      (by decide) (by decide)).2.2.2⟩

/-! ### C7: numeric-year filtering keeps exactly the rows at or before the
reference year -/

/-- C7.  For every table whose designated date column is numeric, a normal
(exception-free) run of `remove_future_dates` keeps a row exactly when the
cell in that column is a number at most the current year in the reference
timezone; rows with a missing or non-numeric entry are dropped. -/
theorem c7_numeric_year_filter (today : SDate) (df : DFrame) (c : String)
    (i : Nat) (row : List Cell) (h : colIdx df.cols c = some i)
    (hd : dtypeAt df i = .numT) :
    row ∈ ((remove_future_dates none today df c).1).rows ↔
      row ∈ df.rows ∧ ∃ q : ℚ, row.getD i .null = .num q ∧ q ≤ (today.year : ℚ) := by
  simp only [remove_future_dates, h, hd]
  simp [filterNumYear, List.mem_filter, cellLeYear_iff]

/-- The normalized two-row South-Korea table of the C7 scenario. -/
def koreaScenario : DFrame :=
  { cols := ["country", "iso_alpha", "year", "value"]
  , dtypes := [.objT, .objT, .numT, .numT]
  , rows := [[.str "South Korea", .str "KOR", .num 2030, .num 25],
             [.str "South Korea", .str "KOR", .num 2022,
              .num ⟨241, 10, by decide, by decide⟩]] }

/-- Witness for C7: with reference today 2024-01-01 (Seoul), the 2022 row
is kept and, by direct evaluation, the 2030 row is dropped. -/
theorem c7_numeric_year_filter_witness :
    ([.str "South Korea", .str "KOR", .num 2022, .num ⟨241, 10, by decide, by decide⟩] ∈
        ((remove_future_dates none ⟨2024, 1, 1⟩ koreaScenario "year").1).rows ↔
      ([.str "South Korea", .str "KOR", .num 2022, .num ⟨241, 10, by decide, by decide⟩] ∈ koreaScenario.rows ∧
        ∃ q : ℚ, ([.str "South Korea", .str "KOR", .num 2022,
            .num ⟨241, 10, by decide, by decide⟩] : List Cell).getD 2 .null = .num q ∧ q ≤ ((2024 : Int) : ℚ))) ∧
      ((remove_future_dates none ⟨2024, 1, 1⟩ koreaScenario "year").1).rows =
        [[.str "South Korea", .str "KOR", .num 2022,
           .num ⟨241, 10, by decide, by decide⟩]] :=
  ⟨c7_numeric_year_filter ⟨2024, 1, 1⟩ koreaScenario "year" 2 _ (by decide) (by decide),
   by decide⟩

/-! ### C3: exceptions inside the Future-Date Filter are swallowed, but a
late exception does not return the unfiltered input -/

/-- A non-numeric date table for the C3 analysis: one parseable date and
one garbage entry. -/
def dateScenario : DFrame :=
  { cols := ["date", "value"]
  , dtypes := [.objT, .numT]
  , rows := [[.str "2020-01-05", .num 1], [.str "garbage", .num 2]] }

/-- Counterexample to C3 as stated.  In the datetime branch, an exception
raised at the final `df[date_col] <= today` comparison (which pandas does
raise there: the coerced column is tz-naive while `today` is tz-aware) is
swallowed, but the value returned is the locally rebound frame after the
`to_datetime` coercion and the `notna` filtering — one row instead of two —
and the frame object of the caller has had its date column coerced in
place.  So the filter neither returns the unfiltered input nor leaves it
unchanged. -/
theorem c3_counterexample :
    (remove_future_dates (some .rCmp) ⟨2024, 1, 1⟩ dateScenario "date").1 ≠
        dateScenario ∧
      (remove_future_dates (some .rCmp) ⟨2024, 1, 1⟩ dateScenario "date").2 ≠
        dateScenario ∧
      ((remove_future_dates (some .rCmp) ⟨2024, 1, 1⟩ dateScenario "date").1).rows.length
        = 1 ∧ dateScenario.rows.length = 2 := by
  refine ⟨?_, ?_, by decide, by decide⟩ <;> decide

/-- C3 amended.  Every internal exception is swallowed (the function always
returns), and the result is the unfiltered, unmodified input whenever the
exception occurs before any coercion or filtering step: when computing the
reference date, during the numeric-branch selection, or during the
`pd.to_datetime` call itself.  (After the in-place coercion the swallowed
exception instead returns the partially processed local frame, as the
counterexample shows.) -/
theorem c3_amended_early_exception_noop (today : SDate) (df : DFrame) (c : String) :
    remove_future_dates (some .rToday) today df c = (df, df) ∧
      (∀ i, colIdx df.cols c = some i → dtypeAt df i = .numT →
        remove_future_dates (some .rNumFilter) today df c = (df, df)) ∧
      (∀ i, colIdx df.cols c = some i → dtypeAt df i ≠ .numT →
        remove_future_dates (some .rCoerce) today df c = (df, df)) := by
  refine ⟨by simp [remove_future_dates], fun i h hd => ?_, fun i h hd => ?_⟩ <;>
    simp [remove_future_dates, h, hd]

/-- Witness for the amended C3 at concrete frames. -/
theorem c3_amended_early_exception_noop_witness :
    remove_future_dates (some .rToday) ⟨2024, 1, 1⟩ dateScenario "date" =
        (dateScenario, dateScenario) ∧
      remove_future_dates (some .rNumFilter) ⟨2024, 1, 1⟩ koreaScenario "year" =
        (koreaScenario, koreaScenario) ∧
      remove_future_dates (some .rCoerce) ⟨2024, 1, 1⟩ dateScenario "date" =
        (dateScenario, dateScenario) :=
  ⟨(c3_amended_early_exception_noop ⟨2024, 1, 1⟩ dateScenario "date").1,
   (c3_amended_early_exception_noop ⟨2024, 1, 1⟩ koreaScenario "year").2.1 2
     (by decide) (by decide),
   (c3_amended_early_exception_noop ⟨2024, 1, 1⟩ dateScenario "date").2.2 0
     (by decide) (by decide)⟩

/-! ### C5: the Column Detector returns the first pollutant-named column,
falls back to the first exact generic alias, else fails -/

/-- C5.  `find_value_column` returns `some c` exactly when `c` is the first
column (in original order) whose lower-cased name contains one of `"pm2"`,
`"pm 2"`, `"pm25"`, `"average exposure"` (`pmMatch`), or — when no column
matches those — the first column whose lower-cased name is exactly
`"value"`, `"avg"` or `"mean"` (`aliasMatch`); and it returns `none`
exactly when no column matches either tier. -/
theorem c5_find_value_column_first_match (cols : List String) (c : String) :
    (find_value_column cols = some c ↔
      (pmMatch c = true ∧ ∃ l1 l2, cols = l1 ++ c :: l2 ∧ ∀ x ∈ l1, pmMatch x = false) ∨
        ((∀ x ∈ cols, pmMatch x = false) ∧ aliasMatch c = true ∧
          ∃ l1 l2, cols = l1 ++ c :: l2 ∧ ∀ x ∈ l1, aliasMatch x = false)) ∧
      (find_value_column cols = none ↔
        ∀ x ∈ cols, pmMatch x = false ∧ aliasMatch x = false) := by
  constructor
  · unfold find_value_column
    cases h : cols.find? pmMatch with
    | some d =>
      constructor
      · intro he
        obtain rfl : d = c := by injection he
        left
        obtain ⟨hp, l1, l2, hsplit, hall⟩ := List.find?_eq_some.mp h
        exact ⟨hp, l1, l2, hsplit, fun x hx => by simpa using hall x hx⟩
      · rintro (⟨hp, l1, l2, rfl, hall⟩ | ⟨hall, -⟩)
        · have : (l1 ++ c :: l2).find? pmMatch = some c :=
            List.find?_eq_some.mpr ⟨hp, l1, l2, rfl, fun x hx => by simp [hall x hx]⟩
          rw [h] at this
          exact this
        · have hmem := List.mem_of_find?_eq_some h
          have hd := List.find?_some h
          simp [hall d hmem] at hd
    | none =>
      have hnone := List.find?_eq_none.mp h
      constructor
      · intro h2
        right
        obtain ⟨hp, l1, l2, hsplit, hall⟩ := List.find?_eq_some.mp h2
        exact ⟨fun x hx => by simpa using hnone x hx, hp, l1, l2, hsplit,
          fun x hx => by simpa using hall x hx⟩
      · rintro (⟨hp, l1, l2, rfl, -⟩ | ⟨-, hp, l1, l2, rfl, hall⟩)
        · have := hnone c (by simp)
          simp [hp] at this
        · exact List.find?_eq_some.mpr ⟨hp, l1, l2, rfl, fun x hx => by simp [hall x hx]⟩
  · unfold find_value_column
    cases h : cols.find? pmMatch with
    | some d =>
      have hd := List.find?_some h
      have hmem := List.mem_of_find?_eq_some h
      constructor
      · intro he
        exact absurd he (by simp)
      · intro hall
        exact absurd hd (by simp [(hall d hmem).1])
    | none =>
      have hnone := List.find?_eq_none.mp h
      rw [List.find?_eq_none]
      constructor
      · intro hall x hx
        exact ⟨by simpa using hnone x hx, by simpa using hall x hx⟩
      · intro hall x hx
        simp [(hall x hx).2]

/-! ### C8: the Aggregator Filter removes exactly the deny-listed rows -/

/-- The table of the C8 scenario: rows for World, Europe and Narnia. -/
def aggScenario : DFrame :=
  { cols := ["country"]
  , dtypes := [.objT]
  , rows := [[.str "World"], [.str "Europe"], [.str "Narnia"]] }

/-- C8.  The aggregate filter removes a row exactly when the cell of its
country column is equal, as a full string, to a member of the fixed
deny-list (`World`, the four income-tier groups, and the continents); every
other row — including unknown names such as `Narnia` — passes through
unchanged, as the concrete scenario confirms. -/
theorem c8_aggregator_exact_denylist :
    (∀ (df : DFrame) (ic : Nat) (row : List Cell),
      row ∈ (aggregatorFilter ic df).rows ↔
        row ∈ df.rows ∧ ∀ e ∈ exclude_entities, row.getD ic .null ≠ .str e) ∧
      (aggregatorFilter 0 aggScenario).rows = [[.str "Narnia"]] := by
  constructor
  · intro df ic row
    simp [aggregatorFilter, filterRows, List.mem_filter, isinExcluded]
  · decide

/-! ### C9: the pipeline falls back to the fixed sample dataset, flagged -/

/-- C9.  If every fetch attempt fails (the retry loop exhausts), or if the
fetched table has no recognizable pollutant value column (the
`ValueColumnNotFound` failure of normalization), then `load_data` returns
exactly the fixed built-in fallback dataset — ten countries, all for the
single year 2022 — together with the sample-data flag set to `true`. -/
theorem c9_fallback_dataset (reg : List RegEntry) (fuzzy : String → Option String)
    (responses : Nat → Option DFrame) (max_retries : Nat) (raw : DFrame)
    (hfail : ∀ i, responses i = none) (hnocol : find_value_column raw.cols = none) :
    load_data reg fuzzy (fetch_owid_pm25 responses max_retries) = (sample_df, true) ∧
      load_data reg fuzzy (some raw) = (sample_df, true) ∧
      sample_df.rows.length = 10 ∧
      (∀ r ∈ sample_df.rows, r.getD 2 .null = .num 2022) := by
  have hfetch : fetch_owid_pm25 responses max_retries = none := by
    simp [fetch_owid_pm25, List.findSome?_eq_none_iff, hfail]
  refine ⟨by rw [hfetch]; rfl, ?_, by decide, by decide⟩
  simp [load_data, prepare_owid_df, hnocol]

/-- Witness for C9: all attempts failing and a frame with no matching
column. -/
theorem c9_fallback_dataset_witness :
    load_data [] (fun _ => none) (fetch_owid_pm25 (fun _ => none) 2) =
        (sample_df, true) ∧
      load_data [] (fun _ => none)
          (some ⟨["Entity", "Code"], [.objT, .objT], []⟩) = (sample_df, true) :=
  ⟨(c9_fallback_dataset [] (fun _ => none) (fun _ => none) 2
      ⟨["Entity", "Code"], [.objT, .objT], []⟩ (fun _ => rfl) (by decide)).1,
   (c9_fallback_dataset [] (fun _ => none) (fun _ => none) 2
      ⟨["Entity", "Code"], [.objT, .objT], []⟩ (fun _ => rfl) (by decide)).2.1⟩

/-! ### Column-index and column-assignment lemmas -/

lemma colIdx_eq_none_iff (cols : List String) (c : String) :
    colIdx cols c = none ↔ c ∉ cols := by
  induction cols with
  | nil => simp [colIdx]
  | cons x xs ih =>
    by_cases h : x = c
    · subst h
      simp [colIdx]
    · simp [colIdx, h, Option.map_eq_none', ih, Ne.symm h]

lemma colIdx_isSome_of_mem {cols : List String} {c : String} (h : c ∈ cols) :
    ∃ i, colIdx cols c = some i := by
  cases hi : colIdx cols c with
  | none => exact absurd ((colIdx_eq_none_iff cols c).mp hi) (by simp [h])
  | some i => exact ⟨i, rfl⟩

lemma colIdx_getD {cols : List String} {c : String} {i : Nat}
    (h : colIdx cols c = some i) : cols.getD i "" = c := by
  induction cols generalizing i with
  | nil => simp [colIdx] at h
  | cons x xs ih =>
    by_cases hx : x = c
    · simp only [colIdx, if_pos hx, Option.some.injEq] at h
      subst h
      simpa using hx
    · simp only [colIdx, if_neg hx, Option.map_eq_some'] at h
      obtain ⟨j, hj, rfl⟩ := h
      simpa using ih hj

lemma colIdx_lt_length {cols : List String} {c : String} {i : Nat}
    (h : colIdx cols c = some i) : i < cols.length := by
  induction cols generalizing i with
  | nil => simp [colIdx] at h
  | cons x xs ih =>
    by_cases hx : x = c
    · simp only [colIdx, if_pos hx, Option.some.injEq] at h
      subst h
      simp
    · simp only [colIdx, if_neg hx, Option.map_eq_some'] at h
      obtain ⟨j, hj, rfl⟩ := h
      simpa using ih hj

lemma colIdx_ne_of_names {cols : List String} {a b : String} {i j : Nat}
    (h1 : colIdx cols a = some i) (h2 : colIdx cols b = some j)
    (hab : a ≠ b) : i ≠ j := by
  intro he
  subst he
  exact hab ((colIdx_getD h1).symm.trans (colIdx_getD h2))

lemma colIdx_append_left {cols : List String} {c : String} {i : Nat}
    (l : List String) (h : colIdx cols c = some i) :
    colIdx (cols ++ l) c = some i := by
  induction cols generalizing i with
  | nil => simp [colIdx] at h
  | cons x xs ih =>
    by_cases hx : x = c
    · simp only [colIdx, if_pos hx, Option.some.injEq] at h
      simp [colIdx, hx, ← h]
    · simp only [colIdx, if_neg hx, Option.map_eq_some'] at h
      obtain ⟨j, hj, rfl⟩ := h
      simp [colIdx, hx, ih hj]

lemma colIdx_append_singleton_ne {cols : List String} {c n : String}
    (h : c ≠ n) : colIdx (cols ++ [n]) c = colIdx cols c := by
  induction cols with
  | nil => simp [colIdx, Ne.symm h]
  | cons x xs ih => by_cases hx : x = c <;> simp [colIdx, hx, ih]

lemma colIdx_append_singleton_self {cols : List String} {c : String}
    (h : c ∉ cols) : colIdx (cols ++ [c]) c = some cols.length := by
  induction cols with
  | nil => simp [colIdx]
  | cons x xs ih =>
    simp only [List.mem_cons, not_or] at h
    simp [colIdx, Ne.symm h.1, ih h.2]

lemma setColF_rows (df : DFrame) (n : String) (dt : DType) (g : List Cell → Cell) :
    (setColF df n dt g).rows = df.rows.map (setColRowF (colIdx df.cols n) g) := by
  unfold setColF
  cases colIdx df.cols n <;> rfl

lemma setColF_cols_mem {df : DFrame} {m : String} (n : String) (dt : DType)
    (g : List Cell → Cell) (h : m ∈ df.cols) : m ∈ (setColF df n dt g).cols := by
  unfold setColF
  cases colIdx df.cols n <;> simp [h]

lemma colIdx_mem {cols : List String} {c : String} {i : Nat}
    (h : colIdx cols c = some i) : c ∈ cols := by
  induction cols generalizing i with
  | nil => simp [colIdx] at h
  | cons x xs ih =>
    by_cases hx : x = c
    · simp [hx]
    · simp only [colIdx, if_neg hx, Option.map_eq_some'] at h
      obtain ⟨j, hj, rfl⟩ := h
      simp [ih hj]

lemma setColF_cols_self (df : DFrame) (n : String) (dt : DType)
    (g : List Cell → Cell) : n ∈ (setColF df n dt g).cols := by
  unfold setColF
  cases hn : colIdx df.cols n with
  | none => simp
  | some i => simp [colIdx_mem hn]

lemma setColF_WF {df : DFrame} (n : String) (dt : DType) (g : List Cell → Cell)
    (h : df.WF) : (setColF df n dt g).WF := by
  obtain ⟨hd, hr⟩ := h
  unfold setColF
  cases hn : colIdx df.cols n with
  | some i =>
    refine ⟨by simp [hd], ?_⟩
    intro r hrm
    simp only [List.mem_map] at hrm
    obtain ⟨r0, hr0, rfl⟩ := hrm
    simp [setColRowF, hr r0 hr0]
  | none =>
    refine ⟨by simp [hd], ?_⟩
    intro r hrm
    simp only [List.mem_map] at hrm
    obtain ⟨r0, hr0, rfl⟩ := hrm
    simp [setColRowF, hr r0 hr0]

lemma cellN_setColF_self {df : DFrame} {r : List Cell} (n : String) (dt : DType)
    (g : List Cell → Cell) (hr : r.length = df.cols.length) :
    cellN (setColF df n dt g) (setColRowF (colIdx df.cols n) g r) n = g r := by
  cases hn : colIdx df.cols n with
  | some i =>
    simp only [setColF, hn, cellN, setColRowF]
    exact getD_set_self r i (g r) (hr ▸ colIdx_lt_length hn)
  | none =>
    have h1 : colIdx (df.cols ++ [n]) n = some df.cols.length :=
      colIdx_append_singleton_self ((colIdx_eq_none_iff _ _).mp hn)
    simp only [setColF, hn, cellN, setColRowF]
    rw [h1, ← hr]
    simp [List.getD_eq_getElem?_getD, List.getElem?_append_right (Nat.le_refl r.length)]

lemma cellN_setColF_ne {df : DFrame} {r : List Cell} {m : String} (n : String)
    (dt : DType) (g : List Cell → Cell) (hmn : m ≠ n)
    (hr : r.length = df.cols.length) :
    cellN (setColF df n dt g) (setColRowF (colIdx df.cols n) g r) m = cellN df r m := by
  cases hn : colIdx df.cols n with
  | some i =>
    simp only [setColF, hn, cellN, setColRowF]
    cases hm : colIdx df.cols m with
    | none => rfl
    | some j =>
      exact getD_set_ne r i j (g r) (colIdx_ne_of_names hn hm (Ne.symm hmn))
  | none =>
    simp only [setColF, hn, cellN, setColRowF]
    rw [colIdx_append_singleton_ne hmn]
    cases hm : colIdx df.cols m with
    | none => rfl
    | some j =>
      have hj : j < r.length := hr ▸ colIdx_lt_length hm
      simp [List.getD_eq_getElem?_getD, List.getElem?_append_left hj]

lemma isNullCell_eq_false_iff (c : Cell) : isNullCell c = false ↔ c ≠ .null := by
  cases c <;> simp [isNullCell]

lemma tier12Row_getD_ne (m : List (String × String)) (ii ic j : Nat) (h : ii ≠ j)
    (r : List Cell) : (tier12Row m ii ic r).getD j .null = r.getD j .null := by
  unfold tier12Row
  split
  · exact getD_set_ne r ii j _ h
  · rfl

lemma fuzzyRow_getD_ne (fz : String → Option String) (ii ic j : Nat) (h : ii ≠ j)
    (r : List Cell) : (fuzzyRow fz ii ic r).getD j .null = r.getD j .null := by
  unfold fuzzyRow
  split
  · exact getD_set_ne r ii j _ h
  · rfl

/-- Destructuring of a successful `setYear`. -/
lemma setYear_eq_some {df df2 : DFrame} (h : setYear df = some df2) :
    ∃ g, yearSrc df = some g ∧ df2 = setColF df "year" .numT g := by
  unfold setYear at h
  split at h
  · exact absurd h (by simp)
  · next g hg =>
    split at h
    · exact ⟨g, hg, (Option.some_inj.mp h).symm⟩
    · exact absurd h (by simp)

/-- Destructuring of a successful `prepare_owid_df`. -/
lemma prepare_ok_destruct {reg : List RegEntry} {fuzzy : String → Option String}
    {raw out : DFrame} (h : prepare_owid_df reg fuzzy raw = .ok out) :
    ∃ vc df2, find_value_column raw.cols = some vc ∧
      setYear (setCountry raw) = some df2 ∧
      out = resolveAndFilter reg fuzzy (setValue (setIso df2) vc) := by
  unfold prepare_owid_df at h
  split at h
  · exact absurd h (by simp)
  · next vc hfv =>
    split at h
    · exact absurd h (by simp)
    · next df2 hsy =>
      exact ⟨vc, df2, hfv, hsy, (Except.ok.inj h).symm⟩

/-- All four canonical column names are present after the four assignments
of `prepare_owid_df`. -/
lemma four_cols_mem {raw df2 : DFrame} (hsy : setYear (setCountry raw) = some df2)
    (vc : String) :
    "country" ∈ (setValue (setIso df2) vc).cols ∧
      "iso_alpha" ∈ (setValue (setIso df2) vc).cols ∧
      "year" ∈ (setValue (setIso df2) vc).cols ∧
      "value" ∈ (setValue (setIso df2) vc).cols := by
  obtain ⟨g, -, rfl⟩ := setYear_eq_some hsy
  have h1 : "country" ∈ (setCountry raw).cols := setColF_cols_self _ _ _ _
  refine ⟨?_, ?_, ?_, ?_⟩
  · exact setColF_cols_mem _ _ _ (setColF_cols_mem _ _ _ (setColF_cols_mem _ _ _ h1))
  · exact setColF_cols_mem _ _ _ (setColF_cols_self _ _ _ _)
  · exact setColF_cols_mem _ _ _ (setColF_cols_mem _ _ _ (setColF_cols_self _ _ _ _))
  · exact setColF_cols_self _ _ _ _

/-! ### C6: the Field Normalizer yields exactly the four canonical columns
and non-null value/country/year on every retained row -/

lemma resolveAndFilterIdx_spec (reg : List RegEntry) (fuzzy : String → Option String)
    (ic ii iy iv : Nat) (df4 : DFrame) (hiic : ii ≠ ic) (hiiy : ii ≠ iy)
    (hiiv : ii ≠ iv) :
    (resolveAndFilterIdx reg fuzzy ic ii iy iv df4).cols =
        ["country", "iso_alpha", "year", "value"] ∧
      ∀ r ∈ (resolveAndFilterIdx reg fuzzy ic ii iy iv df4).rows,
        r.length = 4 ∧ r.getD 0 .null ≠ .null ∧ r.getD 2 .null ≠ .null ∧
          r.getD 3 .null ≠ .null := by
  refine ⟨rfl, ?_⟩
  intro r hr
  unfold resolveAndFilterIdx at hr
  simp only [selectFour, List.mem_map] at hr
  obtain ⟨w, hw, rfl⟩ := hr
  simp only [aggregatorFilter, filterRows, List.mem_filter] at hw
  obtain ⟨hw, -⟩ := hw
  simp only [mapRows, List.mem_map] at hw
  obtain ⟨u, hu, rfl⟩ := hw
  simp only [setDtypeAt, filterRows, List.mem_filter] at hu
  obtain ⟨hu, -⟩ := hu
  simp only [mapRows, List.mem_map] at hu
  obtain ⟨v, hv, rfl⟩ := hu
  obtain ⟨z, hz, rfl⟩ := hv
  simp only [filterRows, List.mem_filter, Bool.and_eq_true, Bool.not_eq_true'] at hz
  obtain ⟨-, ⟨hzv, hzc⟩, hzy⟩ := hz
  have echain : ∀ j, ii ≠ j →
      ((fuzzyRow fuzzy ii ic (tier12Row (get_country_iso_mapping reg) ii ic z)).set ii
          (astypeStrCell ((fuzzyRow fuzzy ii ic
            (tier12Row (get_country_iso_mapping reg) ii ic z)).getD ii .null))).getD j .null
        = z.getD j .null := by
    intro j hj
    rw [getD_set_ne _ ii j _ hj, fuzzyRow_getD_ne _ ii ic j hj,
      tier12Row_getD_ne _ ii ic j hj]
  refine ⟨rfl, ?_, ?_, ?_⟩
  · show ((_ : List Cell).set ii _).getD ic .null ≠ .null
    rw [echain ic hiic]
    exact (isNullCell_eq_false_iff _).mp hzc
  · show ((_ : List Cell).set ii _).getD iy .null ≠ .null
    rw [echain iy hiiy]
    exact (isNullCell_eq_false_iff _).mp hzy
  · show ((_ : List Cell).set ii _).getD iv .null ≠ .null
    rw [echain iv hiiv]
    exact (isNullCell_eq_false_iff _).mp hzv

/-- C6.  For every raw table on which normalization succeeds (a pollutant
value column was detected and the year extraction did not raise), the
output of `prepare_owid_df` has exactly the four canonical columns
`country`, `iso_alpha`, `year`, `value`, in that order, and every retained
row is a 4-cell row whose `country` (position 0), `year` (position 2) and
`value` (position 3) cells are non-null: rows missing any of them were
dropped by the `dropna`. -/
theorem c6_normalized_schema_and_nonnull (reg : List RegEntry)
    (fuzzy : String → Option String) (raw out : DFrame)
    (hok : prepare_owid_df reg fuzzy raw = .ok out) :
    out.cols = ["country", "iso_alpha", "year", "value"] ∧
      ∀ r ∈ out.rows, r.length = 4 ∧ r.getD 0 .null ≠ .null ∧
        r.getD 2 .null ≠ .null ∧ r.getD 3 .null ≠ .null := by
  obtain ⟨vc, df2, hfv, hsy, rfl⟩ := prepare_ok_destruct hok
  obtain ⟨hc, hi, hy, hv⟩ := four_cols_mem hsy vc
  obtain ⟨ic, hic⟩ := colIdx_isSome_of_mem hc
  obtain ⟨ii, hii⟩ := colIdx_isSome_of_mem hi
  obtain ⟨iy, hiy⟩ := colIdx_isSome_of_mem hy
  obtain ⟨iv, hiv⟩ := colIdx_isSome_of_mem hv
  have hiic : ii ≠ ic := colIdx_ne_of_names hii hic (by decide)
  have hiiy : ii ≠ iy := colIdx_ne_of_names hii hiy (by decide)
  have hiiv : ii ≠ iv := colIdx_ne_of_names hii hiv (by decide)
  unfold resolveAndFilter
  rw [hic, hii, hiy, hiv]
  simp only [Option.getD_some]
  exact resolveAndFilterIdx_spec reg fuzzy ic ii iy iv _ hiic hiiy hiiv

/-- A concrete raw table for the C6 witness. -/
def c6raw : DFrame :=
  { cols := ["Entity", "Code", "Year", "pm25"]
  , dtypes := [.objT, .objT, .numT, .numT]
  , rows := [[.str "South Korea", .str "KOR", .num 2020, .num 7],
             [.str "France", .null, .null, .num 9]] }

/-- The frame `prepare_owid_df` produces from `c6raw` (the France row is
dropped for its missing year). -/
def c6out : DFrame :=
  { cols := ["country", "iso_alpha", "year", "value"]
  , dtypes := [.objT, .objT, .numT, .numT]
  , rows := [[.str "South Korea", .str "KOR", .num 2020, .num 7]] }

/-- Witness for C6 at a concrete raw table. -/
theorem c6_normalized_schema_and_nonnull_witness :
    prepare_owid_df [] (fun _ => none) c6raw = .ok c6out ∧
      (c6out.cols = ["country", "iso_alpha", "year", "value"] ∧
        ∀ r ∈ c6out.rows, r.length = 4 ∧ r.getD 0 .null ≠ .null ∧
          r.getD 2 .null ≠ .null ∧ r.getD 3 .null ≠ .null) :=
  ⟨by decide, c6_normalized_schema_and_nonnull [] (fun _ => none) c6raw c6out
    (by decide)⟩

/-! ### Dictionary lemmas for the merged country mapping -/

/-- `iso_alpha` well-formedness: exactly 3 characters, all uppercase
letters. -/
def isISO3 (s : String) : Bool :=
  s.length = 3 && s.data.all Char.isUpper

lemma dinsert_values {P : String → Prop} {m : List (String × String)}
    {k v : String} (hm : ∀ p ∈ m, P p.2) (hv : P v) :
    ∀ p ∈ dinsert m k v, P p.2 := by
  intro p hp
  unfold dinsert at hp
  split at hp
  · simp only [List.mem_map] at hp
    obtain ⟨q, hq, rfl⟩ := hp
    by_cases hqk : q.1 = k
    · simpa [hqk] using hv
    · simpa [hqk] using hm q hq
  · rcases List.mem_append.mp hp with h | h
    · exact hm p h
    · simp only [List.mem_singleton] at h
      subst h
      exact hv

lemma foldl_dinsert_values {P : String → Prop} (l : List (String × String)) :
    ∀ (m : List (String × String)), (∀ p ∈ m, P p.2) → (∀ p ∈ l, P p.2) →
      ∀ p ∈ l.foldl (fun acc q => dinsert acc q.1 q.2) m, P p.2 := by
  induction l with
  | nil => exact fun m hm _ => hm
  | cons q l ih =>
    intro m hm hl
    exact ih _ (dinsert_values hm (hl q (by simp))) (fun p hp => hl p (by simp [hp]))

lemma static_map_values : ∀ p ∈ static_map, isISO3 p.2 = true := by
  unfold static_map
  exact @foldl_dinsert_values (fun v => isISO3 v = true) common_mappings []
    (by simp) (by decide)

lemma mapping_values {P : String → Prop} (reg : List RegEntry)
    (hs : ∀ p ∈ static_map, P p.2) (hr : ∀ e ∈ reg, P e.alpha_3) :
    ∀ p ∈ get_country_iso_mapping reg, P p.2 := by
  unfold get_country_iso_mapping
  suffices h : ∀ (l : List RegEntry) (m : List (String × String)),
      (∀ p ∈ m, P p.2) → (∀ e ∈ l, P e.alpha_3) →
      ∀ p ∈ l.foldl
        (fun m e =>
          let m := dinsert m e.name e.alpha_3
          match e.official_name with
          | some o => dinsert m o e.alpha_3
          | none => m) m, P p.2 by
    exact h reg static_map hs hr
  intro l
  induction l with
  | nil => exact fun m hm _ => hm
  | cons e l ih =>
    intro m hm hl
    refine ih _ ?_ (fun x hx => hl x (by simp [hx]))
    have h1 : ∀ p ∈ dinsert m e.name e.alpha_3, P p.2 :=
      dinsert_values hm (hl e (by simp))
    cases ho : e.official_name with
    | none => simpa [ho] using h1
    | some o => simpa [ho] using dinsert_values h1 (hl e (by simp))

lemma dlookup_mem {m : List (String × String)} {k v : String}
    (h : dlookup m k = some v) : ∃ p ∈ m, p.2 = v := by
  unfold dlookup at h
  cases hf : m.find? (fun p => p.1 = k) with
  | none => rw [hf] at h; simp at h
  | some p =>
    rw [hf] at h
    simp only [Option.map_some', Option.some_inj] at h
    exact ⟨p, List.mem_of_find?_eq_some hf, h⟩

lemma dlookup_map_update_ne {m : List (String × String)} {k v k' : String}
    (h : k' ≠ k) :
    dlookup (m.map (fun p => if p.1 = k then (k, v) else p)) k' = dlookup m k' := by
  induction m with
  | nil => rfl
  | cons q m ih =>
    by_cases hq : q.1 = k
    · have h1 : ¬((k, v).1 = k') := by simpa using Ne.symm h
      have h2 : ¬(q.1 = k') := by rw [hq]; simpa using Ne.symm h
      simp only [dlookup, List.map_cons, if_pos hq] at *
      rw [List.find?_cons_of_neg _ (by simpa using h1),
        List.find?_cons_of_neg _ (by simpa using h2)]
      exact ih
    · simp only [dlookup, List.map_cons, if_neg hq] at *
      by_cases hk : q.1 = k'
      · rw [List.find?_cons_of_pos _ (by simpa using hk),
          List.find?_cons_of_pos _ (by simpa using hk)]
      · rw [List.find?_cons_of_neg _ (by simpa using hk),
          List.find?_cons_of_neg _ (by simpa using hk)]
        exact ih

lemma dlookup_dinsert_ne {m : List (String × String)} {k v k' : String}
    (h : k' ≠ k) : dlookup (dinsert m k v) k' = dlookup m k' := by
  unfold dinsert
  split
  · exact dlookup_map_update_ne h
  · unfold dlookup
    rw [List.find?_append]
    cases hf : m.find? (fun p => p.1 = k') with
    | some p => rfl
    | none =>
      rw [List.find?_cons_of_neg _ (by simpa using Ne.symm h)]
      rfl

lemma dlookup_dinsert_self (m : List (String × String)) (k v : String) :
    dlookup (dinsert m k v) k = some v := by
  unfold dinsert
  split
  · next hany =>
    induction m with
    | nil => simp at hany
    | cons q m ih =>
      by_cases hq : q.1 = k
      · simp [dlookup, if_pos hq]
      · simp only [List.any_cons, Bool.or_eq_true, decide_eq_true_eq] at hany
        rcases hany with h | h
        · exact absurd h hq
        · simp only [dlookup, List.map_cons, if_neg hq]
          rw [List.find?_cons_of_neg _ (by simpa using hq)]
          exact ih (by simpa using h)
  · next hany =>
    unfold dlookup
    rw [List.find?_append]
    have : m.find? (fun p => p.1 = k) = none := by
      rw [List.find?_eq_none]
      intro p hp
      simp only [Bool.not_eq_true, decide_eq_false_iff_not]
      intro hpk
      refine hany ?_
      simp only [List.any_eq_true, decide_eq_true_eq]
      exact ⟨p, hp, hpk⟩
    simp [this, List.find?]

/-! ### C1: tier priority between the static table and the registry -/

/-- C1 amended.  The static table and the registry exact-name entries are
merged into a single dict, with the registry entries written after the
static ones (`get_country_iso_mapping`), so on a key collision the registry
overwrites the static binding.  Consequently the resolved code for a name
in the static table equals the static code exactly under the agreement
condition: every registry entry carrying that name (as `name` or
`official_name`) maps it to the same code.  (The static table does take
priority over the remaining tier, the fuzzy lookup, which only runs for
rows the dict left unresolved.) -/
theorem c1_amended_static_code_iff_registry_agrees (reg : List RegEntry)
    (n c : String) (hs : dlookup static_map n = some c)
    (hagree : ∀ e ∈ reg, (e.name = n → e.alpha_3 = c) ∧
      (e.official_name = some n → e.alpha_3 = c)) :
    dlookup (get_country_iso_mapping reg) n = some c := by
  unfold get_country_iso_mapping
  suffices h : ∀ (l : List RegEntry) (m : List (String × String)),
      dlookup m n = some c →
      (∀ e ∈ l, (e.name = n → e.alpha_3 = c) ∧
        (e.official_name = some n → e.alpha_3 = c)) →
      dlookup (l.foldl
        (fun m e =>
          let m := dinsert m e.name e.alpha_3
          match e.official_name with
          | some o => dinsert m o e.alpha_3
          | none => m) m) n = some c by
    exact h reg static_map hs hagree
  intro l
  induction l with
  | nil => exact fun m hm _ => hm
  | cons e l ih =>
    intro m hm hl
    refine ih _ ?_ (fun x hx => hl x (by simp [hx]))
    have he := hl e (by simp)
    have h1 : dlookup (dinsert m e.name e.alpha_3) n = some c := by
      by_cases hen : e.name = n
      · rw [hen, dlookup_dinsert_self, he.1 hen]
      · rw [dlookup_dinsert_ne (fun hh => hen hh.symm)]
        exact hm
    cases ho : e.official_name with
    | none => simpa [ho] using h1
    | some o =>
      simp only [ho]
      by_cases hon : o = n
      · subst hon
        rw [dlookup_dinsert_self, he.2 ho]
      · rw [dlookup_dinsert_ne (fun hh => hon hh.symm)]
        exact h1

/-- The raw table of the C1 counterexample: name `Korea`, blank code. -/
def koreaRaw : DFrame :=
  { cols := ["Entity", "Code", "Year", "pm25"]
  , dtypes := [.objT, .objT, .numT, .numT]
  , rows := [[.str "Korea", .null, .num 2020, .num 5]] }

/-- Counterexample to C1 as stated.  `Korea` is in the static table (code
`KOR`).  Against a registry that also resolves the exact name `Korea` —
here to a different code `PRK` — the merged dict, and with it the whole
pipeline, resolves `Korea` to the registry code, not the static one: the
registry exact-match tier overwrites the static table rather than yielding
to it. -/
theorem c1_counterexample :
    dlookup static_map "Korea" = some "KOR" ∧
      dlookup (get_country_iso_mapping [⟨"Korea", none, "PRK"⟩]) "Korea" =
        some "PRK" ∧
      prepare_owid_df [⟨"Korea", none, "PRK"⟩] (fun _ => none) koreaRaw =
        .ok { cols := ["country", "iso_alpha", "year", "value"]
            , dtypes := [.objT, .objT, .numT, .numT]
            , rows := [[.str "Korea", .str "PRK", .num 2020, .num 5]] } ∧
      "PRK" ≠ "KOR" := by
  decide

/-- Witness for the amended C1: a registry entry for `Korea` that agrees
with the static code leaves the static resolution in force. -/
theorem c1_amended_static_code_iff_registry_agrees_witness :
    dlookup static_map "Korea" = some "KOR" ∧
      dlookup (get_country_iso_mapping [⟨"Korea", none, "KOR"⟩]) "Korea" =
        some "KOR" :=
  ⟨by decide,
   c1_amended_static_code_iff_registry_agrees [⟨"Korea", none, "KOR"⟩] "Korea"
     "KOR" (by decide) (by decide)⟩

/-! ### C2: the iso_alpha invariant -/

/-- After the four column assignments, the `iso_alpha` cell of every row is
exactly the `Code` cell of the raw row it came from (in particular `null`
when the raw table has no `Code` column). -/
lemma df4_iso_cell {raw df2 : DFrame} (hwf : raw.WF)
    (hsy : setYear (setCountry raw) = some df2) (vc : String) :
    ∀ w ∈ (setValue (setIso df2) vc).rows, ∃ r0 ∈ raw.rows,
      cellN (setValue (setIso df2) vc) w "iso_alpha" = cellN raw r0 "Code" := by
  obtain ⟨g, -, rfl⟩ := setYear_eq_some hsy
  have hwf1 : (setCountry raw).WF := setColF_WF _ _ _ hwf
  have hwf2 : (setColF (setCountry raw) "year" .numT g).WF := setColF_WF _ _ _ hwf1
  have hwf3 : (setIso (setColF (setCountry raw) "year" .numT g)).WF :=
    setColF_WF _ _ _ hwf2
  intro w hw
  unfold setValue at hw ⊢
  rw [setColF_rows] at hw
  simp only [List.mem_map] at hw
  obtain ⟨r3, hr3, rfl⟩ := hw
  rw [cellN_setColF_ne _ _ _ (by decide) (hwf3.2 r3 hr3)]
  unfold setIso at hr3 ⊢
  rw [setColF_rows] at hr3
  simp only [List.mem_map] at hr3
  obtain ⟨r2, hr2, rfl⟩ := hr3
  rw [cellN_setColF_self _ _ _ (hwf2.2 r2 hr2)]
  rw [setColF_rows] at hr2
  simp only [List.mem_map] at hr2
  obtain ⟨r1, hr1, rfl⟩ := hr2
  have hr1' : ∃ r0 ∈ raw.rows,
      r1 = setColRowF (colIdx raw.cols "country") (countrySrc raw).2 r0 := by
    have hrw : (setCountry raw).rows =
        raw.rows.map (setColRowF (colIdx raw.cols "country") (countrySrc raw).2) :=
      setColF_rows raw "country" (countrySrc raw).1 (countrySrc raw).2
    rw [hrw] at hr1
    simp only [List.mem_map] at hr1
    obtain ⟨r0, h0, he⟩ := hr1
    exact ⟨r0, h0, he.symm⟩
  obtain ⟨r0, hr0, rfl⟩ := hr1'
  refine ⟨r0, hr0, ?_⟩
  cases hcode : colIdx (setColF (setCountry raw) "year" DType.numT g).cols "Code" with
  | some j =>
    have e1 : (isoSrc (setColF (setCountry raw) "year" DType.numT g)).2 =
        fun r => r.getD j .null := by
      simp [isoSrc, hcode]
    simp only [e1]
    have e2 : ∀ r : List Cell, r.getD j .null =
        cellN (setColF (setCountry raw) "year" DType.numT g) r "Code" := by
      intro r
      unfold cellN
      rw [hcode]
    rw [e2]
    rw [cellN_setColF_ne _ _ _ (by decide) (hwf1.2 _ hr1)]
    exact cellN_setColF_ne _ _ _ (by decide) (hwf.2 r0 hr0)
  | none =>
    have hnotin : "Code" ∉ raw.cols := by
      intro hmem
      have h2 : "Code" ∈ (setColF (setCountry raw) "year" DType.numT g).cols :=
        setColF_cols_mem _ _ _ (setColF_cols_mem _ _ _ hmem)
      exact absurd ((colIdx_eq_none_iff _ _).mp hcode) (by simp [h2])
    have hrawnone : colIdx raw.cols "Code" = none :=
      (colIdx_eq_none_iff _ _).mpr hnotin
    have e1 : (isoSrc (setColF (setCountry raw) "year" DType.numT g)).2 =
        fun _ => Cell.null := by
      simp [isoSrc, hcode]
    simp only [e1]
    simp [cellN, hrawnone]

/-- Possible outcomes for the `iso_alpha` cell after the tier-1/2 dict
assignment: missing, untouched (mask false), or a value of the dict. -/
lemma tier12_iso_cases (M : List (String × String)) (ii ic : Nat) (z : List Cell) :
    (tier12Row M ii ic z).getD ii .null = .null ∨
      ((tier12Row M ii ic z).getD ii .null = z.getD ii .null ∧
        maskCell (z.getD ii .null) = false) ∨
      (∃ s v, dlookup M s = some v ∧
        (tier12Row M ii ic z).getD ii .null = .str v) := by
  unfold tier12Row
  by_cases hm : maskCell (z.getD ii .null) = true
  · rw [if_pos hm]
    by_cases hl : ii < z.length
    · rw [getD_set_self _ _ _ hl]
      cases hcc : z.getD ic .null with
      | str s0 =>
        cases hds : dlookup M s0 with
        | some v =>
          right; right
          exact ⟨s0, v, hds, by simp [lookupCountryCell, hds]⟩
        | none => left; simp [lookupCountryCell, hds]
      | null => left; simp [lookupCountryCell]
      | num q => left; simp [lookupCountryCell]
      | date d => left; simp [lookupCountryCell]
    · rw [List.set_eq_of_length_le (Nat.le_of_not_lt hl)]
      left
      exact getD_oob _ _ (Nat.le_of_not_lt hl)
  · rw [if_neg hm]
    exact Or.inr (Or.inl ⟨rfl, by simpa using hm⟩)

/-- Possible outcomes for the `iso_alpha` cell after the fuzzy (tier-3)
assignment: missing, untouched (mask false), or a fuzzy-lookup result. -/
lemma fuzzy_iso_cases (fz : String → Option String) (ii ic : Nat) (y : List Cell) :
    (fuzzyRow fz ii ic y).getD ii .null = .null ∨
      ((fuzzyRow fz ii ic y).getD ii .null = y.getD ii .null ∧
        maskCell (y.getD ii .null) = false) ∨
      (∃ s t, fz s = some t ∧ (fuzzyRow fz ii ic y).getD ii .null = .str t) := by
  unfold fuzzyRow
  by_cases hm : maskCell (y.getD ii .null) = true
  · rw [if_pos hm]
    by_cases hl : ii < y.length
    · rw [getD_set_self _ _ _ hl]
      cases hcc : y.getD ic .null with
      | str s0 =>
        cases hfs : fz s0 with
        | some t =>
          right; right
          exact ⟨s0, t, hfs, by simp [fuzzyCellF, hfs]⟩
        | none => left; simp [fuzzyCellF, hfs]
      | null => left; simp [fuzzyCellF]
      | num q => left; simp [fuzzyCellF]
      | date d => left; simp [fuzzyCellF]
    · rw [List.set_eq_of_length_le (Nat.le_of_not_lt hl)]
      left
      exact getD_oob _ _ (Nat.le_of_not_lt hl)
  · rw [if_neg hm]
    exact Or.inr (Or.inl ⟨rfl, by simpa using hm⟩)

/-- C2 amended.  Every row surviving the Country Resolver carries a string
`iso_alpha` (never null), and it is exactly 3 uppercase letters provided
every non-empty `Code` value of the raw input is itself 3 uppercase
letters, every registry code is, and every fuzzy-lookup result is (the
curated static table is verified internally).  Without the proviso on the
raw `Code` column the 3-letter property fails: a non-empty raw code of any
shape is passed through unvalidated (see the counterexample). -/
theorem c2_amended_iso3_under_wellformed_sources (reg : List RegEntry)
    (fuzzy : String → Option String) (raw out : DFrame) (hwf : raw.WF)
    (hok : prepare_owid_df reg fuzzy raw = .ok out)
    (hcode : ∀ r ∈ raw.rows, cellN raw r "Code" = .null ∨
      cellN raw r "Code" = .str "" ∨
      ∃ s, cellN raw r "Code" = .str s ∧ isISO3 s = true)
    (hreg : ∀ e ∈ reg, isISO3 e.alpha_3 = true)
    (hfz : ∀ n s, fuzzy n = some s → isISO3 s = true) :
    ∀ r ∈ out.rows, ∃ s, r.getD 1 .null = .str s ∧ isISO3 s = true := by
  obtain ⟨vc, df2, hfv, hsy, rfl⟩ := prepare_ok_destruct hok
  obtain ⟨hcm, him, hym, hvm⟩ := four_cols_mem hsy vc
  obtain ⟨ic, hic⟩ := colIdx_isSome_of_mem hcm
  obtain ⟨ii, hii⟩ := colIdx_isSome_of_mem him
  obtain ⟨iy, hiy⟩ := colIdx_isSome_of_mem hym
  obtain ⟨iv, hiv⟩ := colIdx_isSome_of_mem hvm
  have hiso := df4_iso_cell hwf hsy vc
  have hmapv : ∀ k v, dlookup (get_country_iso_mapping reg) k = some v →
      isISO3 v = true := by
    intro k v hkv
    obtain ⟨p, hp, hpv⟩ := dlookup_mem hkv
    exact hpv ▸ @mapping_values (fun x => isISO3 x = true) reg static_map_values hreg p hp
  unfold resolveAndFilter
  rw [hic, hii, hiy, hiv]
  simp only [Option.getD_some]
  intro r hr
  unfold resolveAndFilterIdx at hr
  simp only [selectFour, List.mem_map] at hr
  obtain ⟨w, hw, rfl⟩ := hr
  simp only [aggregatorFilter, filterRows, List.mem_filter] at hw
  obtain ⟨hw, -⟩ := hw
  simp only [mapRows, List.mem_map] at hw
  obtain ⟨u, hu, rfl⟩ := hw
  simp only [setDtypeAt, filterRows, List.mem_filter] at hu
  obtain ⟨hu, hnn⟩ := hu
  simp only [mapRows, List.mem_map] at hu
  obtain ⟨v0, hv0, rfl⟩ := hu
  obtain ⟨z, hz, rfl⟩ := hv0
  simp only [filterRows, List.mem_filter] at hz
  obtain ⟨hz4, -⟩ := hz
  rw [Bool.not_eq_true'] at hnn
  have hnn2 := (isNullCell_eq_false_iff _).mp hnn
  -- position 1 of the selected row is the iso cell of the astype-mapped row
  show ∃ s, ((fuzzyRow fuzzy ii ic (tier12Row (get_country_iso_mapping reg) ii ic z)).set
      ii (astypeStrCell ((fuzzyRow fuzzy ii ic
        (tier12Row (get_country_iso_mapping reg) ii ic z)).getD ii .null))).getD ii .null
      = .str s ∧ isISO3 s = true
  by_cases hlen : ii < (fuzzyRow fuzzy ii ic
      (tier12Row (get_country_iso_mapping reg) ii ic z)).length
  case neg =>
    exact absurd (getD_oob _ _ (Nat.le_of_not_lt hlen)) hnn2
  case pos =>
  rw [getD_set_self _ _ _ hlen]
  suffices hS : ∃ s, (fuzzyRow fuzzy ii ic
      (tier12Row (get_country_iso_mapping reg) ii ic z)).getD ii .null = .str s ∧
      isISO3 s = true by
    obtain ⟨s, hs1, hs2⟩ := hS
    exact ⟨s, by rw [hs1]; rfl, hs2⟩
  rcases fuzzy_iso_cases fuzzy ii ic (tier12Row (get_country_iso_mapping reg) ii ic z)
    with hcase | ⟨heq, hmask⟩ | ⟨s, t, hft, heq⟩
  · exact absurd hcase hnn2
  · rw [heq]
    rw [heq] at hnn2
    rcases tier12_iso_cases (get_country_iso_mapping reg) ii ic z
      with hcase2 | ⟨heq2, hmask2⟩ | ⟨s, v, hdv, heq2⟩
    · exact absurd hcase2 hnn2
    · -- untouched twice: the cell is the raw Code value
      rw [heq2]
      rw [heq2] at hnn2 hmask
      have hcell : cellN (setValue (setIso df2) vc) z "iso_alpha" = z.getD ii .null := by
        unfold cellN
        rw [hii]
      obtain ⟨r0, hr0, hisoeq⟩ := hiso z hz4
      rw [hcell] at hisoeq
      rcases hcode r0 hr0 with hc0 | hc0 | ⟨s, hc0, hiso3⟩
      · exact absurd (hisoeq.trans hc0) hnn2
      · rw [hisoeq.trans hc0] at hmask
        simp [maskCell] at hmask
      · exact ⟨s, hisoeq.trans hc0, hiso3⟩
    · exact ⟨v, heq2, hmapv s v hdv⟩
  · exact ⟨t, heq, hfz s t hft⟩

/-- Raw table with a malformed (2-letter) non-empty `Code`. -/
def xxRaw : DFrame :=
  { cols := ["Entity", "Code", "Year", "pm25"]
  , dtypes := [.objT, .objT, .numT, .numT]
  , rows := [[.str "Narnia", .str "XX", .num 2020, .num 5]] }

/-- Counterexample to C2 as stated: a non-empty raw `Code` value survives
the whole pipeline unvalidated, so the normalized output contains an
`iso_alpha` of `"XX"` — non-null, but not 3 uppercase letters. -/
theorem c2_counterexample :
    prepare_owid_df [] (fun _ => none) xxRaw =
        .ok { cols := ["country", "iso_alpha", "year", "value"]
            , dtypes := [.objT, .objT, .numT, .numT]
            , rows := [[.str "Narnia", .str "XX", .num 2020, .num 5]] } ∧
      isISO3 "XX" = false := by
  decide

/-- A well-formed raw table for the C2 witness. -/
def c2raw : DFrame :=
  { cols := ["Entity", "Code", "Year", "pm25"]
  , dtypes := [.objT, .objT, .numT, .numT]
  , rows := [[.str "South Korea", .str "KOR", .num 2020, .num 7]] }

/-- The normalized output of `c2raw`. -/
def c2normOut : DFrame :=
  { cols := ["country", "iso_alpha", "year", "value"]
  , dtypes := [.objT, .objT, .numT, .numT]
  , rows := [[.str "South Korea", .str "KOR", .num 2020, .num 7]] }

/-- Witness for the amended C2 at a concrete well-formed input. -/
theorem c2_amended_iso3_under_wellformed_sources_witness :
    prepare_owid_df [] (fun _ => none) c2raw = .ok c2normOut ∧
      ∀ r ∈ c2normOut.rows, ∃ s, r.getD 1 .null = .str s ∧ isISO3 s = true :=
  ⟨by decide,
   c2_amended_iso3_under_wellformed_sources [] (fun _ => none) c2raw c2normOut
     ⟨by decide, by decide⟩ (by decide)
     (by
       intro r hr
       simp only [c2raw, List.mem_singleton] at hr
       subst hr
       exact Or.inr (Or.inr ⟨"KOR", by decide, by decide⟩))
     (by simp) (fun _ _ h => nomatch h)⟩
